import Mathlib

/-!
Shallow embedding of the consensus/decision core of the repository
(`src/consensus/consensus_matrix.py`, `src/consensus/decision_engine.py`,
data model from `src/agents/base_agent.py`).

Modelling conventions:
* Python floats are modelled as exact numbers: inputs and purely rational
  computations as `ℚ`; values passing through `sqrt` (standard deviations,
  hence the consensus score and confidence interval) as `ℝ` via `Real.sqrt`.
* `ValueError` is modelled as `Except.error` carrying the source message.
* Python dicts with fixed keys are modelled as association lists
  (`List (String × ℚ)`), assignment as in-place value update.
* f-string presentation: the dissent messages built by
  `_identify_dissenting_opinions` are modelled as a structured
  `DissentEntry` (role, data, truncated narrative) instead of the rendered
  Chinese format string; the final recommendation text is rendered as an
  actual string.  Where CPython iterates a `set` (whose order is hash-seed
  dependent and unspecified), we fix the order given by `List.dedup`.
-/

/-- `AgentRole` enum from `agents/base_agent.py`. -/
inductive AgentRole where
  | ONCOLOGIST
  | RADIOLOGIST
  | NURSE
  | PSYCHOLOGIST
  | PATIENT_ADVOCATE
deriving DecidableEq

/-- `MedicalCase` dataclass from `agents/base_agent.py`.  The `Dict[str, Any]`
fields (`patient_info`, `test_results`, `imaging_data`) are opaque to the
consensus core (only `case_id` is ever read) and are modelled as string
association lists. -/
structure MedicalCase where
  case_id : String
  patient_info : List (String × String) := []
  symptoms : List String := []
  medical_history : List String := []
  test_results : List (String × String) := []
  imaging_data : List (String × String) := []
  current_treatment : Option String := none
deriving DecidableEq

/-- `AgentOpinion` dataclass from `agents/base_agent.py`. -/
structure AgentOpinion where
  agent_id : String
  role : AgentRole
  opinion : String
  confidence : ℚ
  reasoning : String := ""
  recommendations : List String := []
  concerns : List String := []
  priority_score : ℚ := 5
  timestamp : String := ""
deriving DecidableEq

/-- `ConsensusMatrix.role_weights` (`consensus_matrix.py`).  The Python code
reads it with `.get(op.role, 0.2)`; since `AgentRole` is a closed enum whose
every member is a key of the dict, the `0.2` default is unreachable and the
lookup is total. -/
def role_weight : AgentRole → ℚ
  | .ONCOLOGIST => 0.35
  | .RADIOLOGIST => 0.25
  | .NURSE => 0.15
  | .PSYCHOLOGIST => 0.15
  | .PATIENT_ADVOCATE => 0.10

/-- Structured stand-in for the dissent message strings built in
`_identify_dissenting_opinions`: `lowConfidence role conf excerpt` models
`f"{role}: 置信度较低({conf:.2f}) - {opinion[:100]}..."` and
`uniqueConcerns role cs` models `f"{role}: 独特关注 - {list(unique)}"`. -/
inductive DissentEntry where
  | lowConfidence (role : AgentRole) (confidence : ℚ) (excerpt : String)
  | uniqueConcerns (role : AgentRole) (concerns : List String)
deriving DecidableEq

/-- `ConsensusResult` dataclass (`consensus_matrix.py`). -/
structure ConsensusResult where
  final_recommendation : String
  consensus_score : ℝ
  weighted_priority : ℚ
  dissenting_opinions : List DissentEntry
  confidence_interval : ℝ × ℝ
  risk_assessment : List (String × ℚ)

/-- The confidences extracted from the opinions
(`[op.confidence for op in opinions]`). -/
def confidences (ops : List AgentOpinion) : List ℚ :=
  ops.map (fun o => o.confidence)

/-- The per-opinion role weights
(`[self.role_weights.get(op.role, 0.2) for op in opinions]`). -/
def opinion_weights (ops : List AgentOpinion) : List ℚ :=
  ops.map (fun o => role_weight o.role)

/-- `np.average(confidences, weights=role_weights)` = Σ wᵢ·cᵢ / Σ wᵢ. -/
def weighted_confidence (ops : List AgentOpinion) : ℚ :=
  (ops.map (fun o => role_weight o.role * o.confidence)).sum
    / (opinion_weights ops).sum

/-- `np.average(priorities, weights=role_weights)`. -/
def weighted_priority_of (ops : List AgentOpinion) : ℚ :=
  (ops.map (fun o => role_weight o.role * o.priority_score)).sum
    / (opinion_weights ops).sum

/-- Arithmetic mean of a rational list (division by zero yields 0 in `ℚ`;
only reached from nonempty lists in the code). -/
def q_mean (xs : List ℚ) : ℚ := xs.sum / xs.length

/-- Population variance, as under `np.std(xs) ** 2` (ddof = 0). -/
def q_variance (xs : List ℚ) : ℚ :=
  (xs.map (fun x => (x - q_mean xs) ^ 2)).sum / xs.length

/-- `np.std(xs)` (population standard deviation). -/
noncomputable def std_dev (xs : List ℚ) : ℝ := Real.sqrt (q_variance xs)

/-- `all_recommendations`: flatten every opinion's recommendations, in order
(`for op in opinions: all_recommendations.extend(op.recommendations)`). -/
def all_recommendations (ops : List AgentOpinion) : List String :=
  (ops.map (fun o => o.recommendations)).flatten

/-- `overlapping_count`: the Python code builds `recommendation_counts`
(a dict whose keys are the distinct recommendation strings and whose values
are occurrence counts) and sums the counts exceeding one.  Distinct keys are
modelled by `List.dedup`; the sum is order-independent. -/
def overlapping_count (ops : List AgentOpinion) : ℕ :=
  (((all_recommendations ops).dedup.map
      (fun r => (all_recommendations ops).count r)).filter
    (fun c => decide (1 < c))).sum

/-- `overlapping_count / total_recommendations`, the recommendation-overlap
part of `_calculate_consensus_score` (0 when there are no recommendations,
matching the early `return 0.0`). -/
def overlap_fraction (ops : List AgentOpinion) : ℚ :=
  if (all_recommendations ops).length = 0 then 0
  else (overlapping_count ops : ℚ) / ((all_recommendations ops).length : ℚ)

/-- `ConsensusMatrix._calculate_consensus_score`.  Note the early returns:
`1.0` for at most one opinion, and `0.0` when no opinion carries any
recommendation (before confidence consistency is ever blended in). -/
noncomputable def calculate_consensus_score (ops : List AgentOpinion) : ℝ :=
  if ops.length ≤ 1 then 1
  else if (all_recommendations ops).length = 0 then 0
  else
    let consensus_score : ℝ := (overlap_fraction ops : ℝ)
    let confidence_consistency : ℝ :=
      1 - min (std_dev (confidences ops)) 0.5 / 0.5
    min (0.7 * consensus_score + 0.3 * confidence_consistency) 1

/-- `opinion[:100]` used when quoting a dissenting opinion's narrative. -/
def excerpt100 (s : String) : String := String.mk (s.toList.take 100)

/-- The dissent entries contributed by one opinion inside the loop of
`_identify_dissenting_opinions`: a low-confidence entry when
`confidence < 0.5`, then a unique-concern entry when the opinion holds a
concern no other opinion (by `agent_id`) lists.  `set(...) - set(...)` is
modelled as a deduplicated filter (set order unspecified in CPython). -/
def dissent_for (ops : List AgentOpinion) (o : AgentOpinion) : List DissentEntry :=
  (if o.confidence < 0.5 then
      [DissentEntry.lowConfidence o.role o.confidence (excerpt100 o.opinion)]
    else []) ++
  (let other_concerns :=
      ((ops.filter (fun p => decide (p.agent_id ≠ o.agent_id))).map
        (fun p => p.concerns)).flatten
   let unique := (o.concerns.filter
      (fun c => decide (c ∉ other_concerns))).dedup
   if unique = [] then [] else [DissentEntry.uniqueConcerns o.role unique])

/-- `ConsensusMatrix._identify_dissenting_opinions`. -/
noncomputable def identify_dissenting_opinions
    (ops : List AgentOpinion) (consensus_score : ℝ) : List DissentEntry :=
  if consensus_score > 0.8 then []
  else (ops.map (dissent_for ops)).flatten

/-- Weighted population variance of the confidences,
`np.average((conf - weighted_mean)**2, weights=weights)`. -/
def weighted_conf_variance (ops : List AgentOpinion) : ℚ :=
  (ops.map (fun o =>
      role_weight o.role * (o.confidence - weighted_confidence ops) ^ 2)).sum
    / (opinion_weights ops).sum

/-- `ConsensusMatrix._calculate_confidence_interval`:
`mean ± 1.96·std/√n`, bounds clamped to [0, 1]. -/
noncomputable def calculate_confidence_interval (ops : List AgentOpinion) : ℝ × ℝ :=
  let weighted_mean : ℝ := (weighted_confidence ops : ℝ)
  let weighted_std : ℝ := Real.sqrt ((weighted_conf_variance ops : ℝ))
  let margin_error : ℝ := 1.96 * weighted_std / Real.sqrt (ops.length : ℝ)
  (max 0 (weighted_mean - margin_error), min 1 (weighted_mean + margin_error))

/-- `keyword in concern` (substring test on Unicode code points):
`starts_with n h` holds when `n` is an initial segment of `h`. -/
def starts_with : List Char → List Char → Bool
  | [], _ => true
  | _ :: _, [] => false
  | a :: as, b :: bs => a == b && starts_with as bs

/-- `occurs_in n h`: `n` occurs contiguously somewhere inside `h`. -/
def occurs_in (needle : List Char) : List Char → Bool
  | [] => needle.isEmpty
  | b :: bs => starts_with needle (b :: bs) || occurs_in needle bs

/-- Python's `keyword in concern` for strings. -/
def contains_sub (concern keyword : String) : Bool :=
  occurs_in keyword.toList concern.toList

/-- `sum(1 for concern in concerns if any(k in concern for k in keywords))`. -/
def matching_concerns (keywords : List String) (concerns : List String) : ℕ :=
  (concerns.filter (fun c => keywords.any (fun k => contains_sub c k))).length

/-- The per-category risk value written by `_assess_risks` for one
authoritative opinion:
`min(matches / len(concerns) if concerns else 0, 1.0)`. -/
def role_risk_value (keywords : List String) (o : AgentOpinion) : ℚ :=
  min (if o.concerns = [] then 0
       else (matching_concerns keywords o.concerns : ℚ) / (o.concerns.length : ℚ))
    1

def medical_keywords : List String := ["转移", "复发", "副作用", "并发症"]
def psych_keywords : List String := ["抑郁", "焦虑", "自杀", "创伤"]
def economic_keywords : List String := ["费用", "经济", "负担"]
def quality_keywords : List String := ["生活质量", "功能", "自理"]

/-- The initial `risks` dict of `_assess_risks`. -/
def initial_risks : List (String × ℚ) :=
  [("medical_risk", 0), ("psychological_risk", 0),
   ("economic_risk", 0), ("quality_of_life_risk", 0)]

/-- Dict assignment `risks[key] = v` (overwrites the value at an existing
key; `_assess_risks` only writes keys present in `initial_risks`). -/
def set_risk (key : String) (v : ℚ) (rs : List (String × ℚ)) : List (String × ℚ) :=
  rs.map (fun p => if p.1 = key then (p.1, v) else p)

/-- Dict read `risks.get(key, 0)`: value at the first matching key, 0 when
the key is absent. -/
def risk_get : List (String × ℚ) → String → ℚ
  | [], _ => 0
  | p :: t, key => if p.1 = key then p.2 else risk_get t key

/-- One iteration of the `for opinion in opinions` loop of `_assess_risks`. -/
def risk_step (rs : List (String × ℚ)) (o : AgentOpinion) : List (String × ℚ) :=
  match o.role with
  | .ONCOLOGIST => set_risk "medical_risk" (role_risk_value medical_keywords o) rs
  | .PSYCHOLOGIST => set_risk "psychological_risk" (role_risk_value psych_keywords o) rs
  | .PATIENT_ADVOCATE =>
      set_risk "quality_of_life_risk" (role_risk_value quality_keywords o)
        (set_risk "economic_risk" (role_risk_value economic_keywords o) rs)
  | _ => rs

/-- `ConsensusMatrix._assess_risks`. -/
def assess_risks (ops : List AgentOpinion) : List (String × ℚ) :=
  ops.foldl risk_step initial_risks

/-- `f"{i}. {item}\n"` lines of an enumerated block (1-based, as in the
Python `enumerate(..., 1)` loops). -/
def enumerated_block (items : List String) : String :=
  String.join ((items.enum.map
    (fun p => toString (p.1 + 1) ++ ". " ++ p.2 ++ "\n")))

/-- The `weighted_recommendations` dict of `_generate_final_recommendation`:
insertion-ordered association list accumulating `role_weight·confidence`
onto each recommendation string. -/
def add_rec_weight (acc : List (String × ℚ)) (rec : String) (w : ℚ) :
    List (String × ℚ) :=
  if acc.any (fun p => decide (p.1 = rec)) then
    acc.map (fun p => if p.1 = rec then (p.1, p.2 + w) else p)
  else acc ++ [(rec, w)]

def weighted_recommendations (ops : List AgentOpinion) : List (String × ℚ) :=
  ops.foldl (fun acc o =>
      o.recommendations.foldl
        (fun acc r => add_rec_weight acc r (role_weight o.role * o.confidence))
        acc)
    []

/-- `ConsensusMatrix._generate_final_recommendation`, rendered as the actual
string.  When `weighted_recommendations` is empty, `np.mean([])` is NaN and
every comparison against it is false, so both partitions are empty in that
case.  `list(set(all_concerns))[:3]` iterates a CPython set whose order is
unspecified; the model fixes the `List.dedup` order. -/
def generate_final_recommendation (ops : List AgentOpinion) : String :=
  let pairs := weighted_recommendations ops
  let sorted := pairs.mergeSort (fun a b => decide (b.2 ≤ a.2))
  let avg := q_mean (pairs.map (fun p => p.2))
  let high_priority : List String :=
    if pairs = [] then []
    else (sorted.filter (fun p => decide (avg < p.2))).map (fun p => p.1)
  let other_recs : List String :=
    if pairs = [] then []
    else (sorted.filter (fun p => decide (p.2 ≤ avg))).map (fun p => p.1)
  let base := "综合多学科意见，推荐治疗方案：\n\n"
  let base := if high_priority = [] then base
    else base ++ "核心推荐：\n" ++ enumerated_block (high_priority.take 5)
  let base := if other_recs = [] then base
    else base ++ "\n补充建议：\n" ++ enumerated_block (other_recs.take 3)
  let all_concerns := (ops.map (fun o => o.concerns)).flatten
  if all_concerns = [] then base
  else base ++ "\n重要关注点：\n" ++ enumerated_block (all_concerns.dedup.take 3)

/-- `ConsensusMatrix.calculate_consensus`: `ValueError` on an empty opinion
list, otherwise the assembled `ConsensusResult`.  (`weighted_confidence` is
computed by the Python code but feeds only the confidence interval, which
recomputes it.) -/
noncomputable def calculate_consensus (ops : List AgentOpinion) :
    Except String ConsensusResult :=
  match ops with
  | [] => Except.error "至少需要一个意见进行共识计算"
  | _ :: _ =>
    Except.ok
      { final_recommendation := generate_final_recommendation ops
        consensus_score := calculate_consensus_score ops
        weighted_priority := weighted_priority_of ops
        dissenting_opinions :=
          identify_dissenting_opinions ops (calculate_consensus_score ops)
        confidence_interval := calculate_confidence_interval ops
        risk_assessment := assess_risks ops }

/-- The risk label of `_generate_decision_summary`:
`"低" if risk < 0.3 else "中" if risk < 0.7 else "高"`. -/
def risk_label (r : ℚ) : String :=
  if r < 0.3 then "低" else if r < 0.7 then "中" else "高"

/-- Structured stand-in for the `_generate_decision_summary` format string:
the data the template interpolates (score, priority, interval, final
recommendation, per-category labels, and the dissent list it appends when
non-empty). -/
structure DecisionSummary where
  consensus_score : ℝ
  weighted_priority : ℚ
  confidence_interval : ℝ × ℝ
  final_recommendation : String
  risk_labels : List (String × String)
  dissenting_opinions : List DissentEntry

/-- `DecisionEngine._generate_decision_summary`. -/
def generate_decision_summary (cr : ConsensusResult) : DecisionSummary :=
  { consensus_score := cr.consensus_score
    weighted_priority := cr.weighted_priority
    confidence_interval := cr.confidence_interval
    final_recommendation := cr.final_recommendation
    risk_labels := cr.risk_assessment.map (fun p => (p.1, risk_label p.2))
    dissenting_opinions := cr.dissenting_opinions }

/-- `DecisionEngine._determine_next_steps`: fixed-order rule list; priority
gating prepends (`insert(0, ...)`); default single-element list when no rule
fired.  The `case` parameter is received but never read, as in the source. -/
noncomputable def determine_next_steps (cr : ConsensusResult)
    (_case : MedicalCase) : List String :=
  let next_steps : List String := []
  let next_steps := if cr.consensus_score < 0.5 then
      next_steps ++ ["需要进一步的多学科讨论", "考虑获取第二诊疗意见"]
    else next_steps
  let next_steps := if risk_get cr.risk_assessment "medical_risk" > 0.7 then
      next_steps ++ ["紧急医疗评估和监护"] else next_steps
  let next_steps := if risk_get cr.risk_assessment "psychological_risk" > 0.5 then
      next_steps ++ ["心理健康专业干预"] else next_steps
  let next_steps := if risk_get cr.risk_assessment "economic_risk" > 0.5 then
      next_steps ++ ["社会工作者介入，评估经济支持需求"] else next_steps
  let next_steps := if cr.weighted_priority > 8 then
      "高优先级处理，48小时内启动治疗" :: next_steps
    else if cr.weighted_priority > 6 then
      "中等优先级，一周内完成相关检查" :: next_steps
    else next_steps
  if next_steps = [] then ["按计划执行推荐方案"] else next_steps

/-- The `follow_up` dict of `_create_follow_up_plan`. -/
structure FollowUpPlan where
  short_term : List String
  medium_term : List String
  long_term : List String
deriving DecidableEq

/-- `DecisionEngine._create_follow_up_plan`. -/
def create_follow_up_plan (cr : ConsensusResult) : FollowUpPlan :=
  { short_term :=
      if cr.risk_assessment.any (fun p => decide ((0.6 : ℚ) < p.2)) then
        ["症状监测和评估", "治疗反应评价", "副作用管理"]
      else []
    medium_term := ["疗效评估", "生活质量评估", "心理状态评估"]
    long_term := ["定期复查", "复发监测", "康复评估"] }

/-- The `quality_metrics` dict of `_calculate_quality_metrics`. -/
structure QualityMetrics where
  opinion_diversity : ℚ
  average_confidence : ℚ
  consensus_strength : ℝ
  risk_coverage : ℚ
  recommendation_completeness : ℚ

/-- Number of lines of a string as measured by `len(s.split('\n'))`. -/
def line_count (s : String) : ℕ := (s.splitOn "\n").length

/-- `DecisionEngine._calculate_quality_metrics` (`len(AgentRole)` is 5;
distinct roles are counted via `set(op.role ...)`). -/
def calculate_quality_metrics (ops : List AgentOpinion)
    (cr : ConsensusResult) : QualityMetrics :=
  { opinion_diversity := ((ops.map (fun o => o.role)).dedup.length : ℚ) / 5
    average_confidence := (confidences ops).sum / (ops.length : ℚ)
    consensus_strength := cr.consensus_score
    risk_coverage :=
      ((cr.risk_assessment.filter (fun p => decide ((0 : ℚ) < p.2))).length : ℚ)
        / (cr.risk_assessment.length : ℚ)
    recommendation_completeness :=
      min ((line_count cr.final_recommendation : ℚ) / 10) 1 }

/-- The `decision_report` dict assembled by `DecisionEngine.make_decision`. -/
structure DecisionReport where
  case_id : String
  consensus_result : ConsensusResult
  agent_opinions : List AgentOpinion
  decision_summary : DecisionSummary
  next_steps : List String
  follow_up_plan : FollowUpPlan
  quality_metrics : QualityMetrics

/-- `DecisionEngine` instance state: the in-memory `decision_history` list
(initialised empty in `__init__`). -/
structure DecisionEngine where
  decision_history : List DecisionReport := []

/-- `DecisionEngine.make_decision`.  A `ValueError` from
`calculate_consensus` propagates unchanged and (the exception being raised
before the `append`) leaves the engine's history untouched; on success the
report is appended to the history. -/
noncomputable def make_decision (eng : DecisionEngine) (case : MedicalCase)
    (ops : List AgentOpinion) : Except String DecisionReport × DecisionEngine :=
  match calculate_consensus ops with
  | Except.error e => (Except.error e, eng)
  | Except.ok cr =>
    let report : DecisionReport :=
      { case_id := case.case_id
        consensus_result := cr
        agent_opinions := ops
        decision_summary := generate_decision_summary cr
        next_steps := determine_next_steps cr case
        follow_up_plan := create_follow_up_plan cr
        quality_metrics := calculate_quality_metrics ops cr }
    (Except.ok report, { decision_history := eng.decision_history ++ [report] })

/-- Replacing the confidences of a list of opinions (everything else held
fixed), used to state the dispersion-monotonicity property. -/
def set_confidences (ops : List AgentOpinion) (cs : List ℚ) : List AgentOpinion :=
  List.zipWith (fun o c => { o with confidence := c }) ops cs

/-- The roles whose opinions write to the risk dict, per the `elif` chain of
`_assess_risks`. -/
def authoritative (o : AgentOpinion) : Bool :=
  match o.role with
  | .ONCOLOGIST => true
  | .PSYCHOLOGIST => true
  | .PATIENT_ADVOCATE => true
  | _ => false

/-- The risk keys written by an opinion of the given role in `_assess_risks`. -/
def touched_keys : AgentRole → List String
  | .ONCOLOGIST => ["medical_risk"]
  | .PSYCHOLOGIST => ["psychological_risk"]
  | .PATIENT_ADVOCATE => ["economic_risk", "quality_of_life_risk"]
  | _ => []

/-! Concrete inputs used by witnesses and counterexamples. -/

def w_case : MedicalCase := { case_id := "case-001" }

def w_op1 : AgentOpinion :=
  { agent_id := "onc-1", role := .ONCOLOGIST, opinion := "手术切除",
    confidence := 0.9 }

def c2_op1 : AgentOpinion :=
  { agent_id := "onc-1", role := .ONCOLOGIST, opinion := "意见一",
    confidence := 0.5 }

def c2_op2 : AgentOpinion :=
  { agent_id := "rad-1", role := .RADIOLOGIST, opinion := "意见二",
    confidence := 0.5 }

def c2_ops : List AgentOpinion := [c2_op1, c2_op2]

def c3_op_a : AgentOpinion :=
  { agent_id := "onc-1", role := .ONCOLOGIST, opinion := "建议活检",
    confidence := 0.9, recommendations := ["biopsy", "MRI"] }

def c3_op_b : AgentOpinion :=
  { agent_id := "rad-1", role := .RADIOLOGIST, opinion := "影像随访",
    confidence := 0.3, recommendations := ["biopsy"] }

def c3_ops : List AgentOpinion := [c3_op_a, c3_op_b]

def c7w_op1 : AgentOpinion :=
  { agent_id := "onc-1", role := .ONCOLOGIST, opinion := "意见一",
    confidence := 0.5, recommendations := ["biopsy"] }

def c7w_op2 : AgentOpinion :=
  { agent_id := "rad-1", role := .RADIOLOGIST, opinion := "意见二",
    confidence := 0.5, recommendations := ["biopsy"] }

def c7w_ops : List AgentOpinion := [c7w_op1, c7w_op2]

def c7w_cs : List ℚ := [0.5, 0.5]

def c8w_high : ConsensusResult :=
  { final_recommendation := "", consensus_score := 1, weighted_priority := 9,
    dissenting_opinions := [], confidence_interval := (0, 1),
    risk_assessment := initial_risks }

def c8w_calm : ConsensusResult :=
  { final_recommendation := "", consensus_score := 1, weighted_priority := 5,
    dissenting_opinions := [], confidence_interval := (0, 1),
    risk_assessment := initial_risks }

def c10w_psy : AgentOpinion :=
  { agent_id := "psy-1", role := .PSYCHOLOGIST, opinion := "心理评估",
    confidence := 0.8, concerns := ["焦虑情绪明显"] }

def c10w_onc : AgentOpinion :=
  { agent_id := "onc-2", role := .ONCOLOGIST, opinion := "肿瘤评估",
    confidence := 0.7, concerns := ["存在转移风险", "术后恢复"] }

def c10w_rad : AgentOpinion :=
  { agent_id := "rad-1", role := .RADIOLOGIST, opinion := "影像评估",
    confidence := 0.6, concerns := ["复发可能"] }

/-! ## Theorems -/

/-- Unfolding of `calculate_consensus` on a non-empty list. -/
theorem calculate_consensus_cons (o : AgentOpinion) (t : List AgentOpinion) :
    calculate_consensus (o :: t) = Except.ok
      { final_recommendation := generate_final_recommendation (o :: t)
        consensus_score := calculate_consensus_score (o :: t)
        weighted_priority := weighted_priority_of (o :: t)
        dissenting_opinions :=
          identify_dissenting_opinions (o :: t) (calculate_consensus_score (o :: t))
        confidence_interval := calculate_confidence_interval (o :: t)
        risk_assessment := assess_risks (o :: t) } := rfl

/-- C1: calling the consensus computation with an empty opinion sequence
yields the `ValueError`; `make_decision` on an empty opinion list propagates
that same error with the decision history unchanged; and for every
non-empty opinion sequence both functions succeed, `make_decision`
appending exactly the produced report to the history. -/
theorem c1_empty_fails_fast_nonempty_succeeds :
    ∀ (eng : DecisionEngine) (c : MedicalCase),
      calculate_consensus ([] : List AgentOpinion)
          = Except.error "至少需要一个意见进行共识计算" ∧
      make_decision eng c []
          = (Except.error "至少需要一个意见进行共识计算", eng) ∧
      ∀ ops : List AgentOpinion, ops ≠ [] →
        (∃ r, calculate_consensus ops = Except.ok r) ∧
        ∃ rep, make_decision eng c ops
            = (Except.ok rep,
               { decision_history := eng.decision_history ++ [rep] }) := by
  intro eng c
  refine ⟨rfl, rfl, ?_⟩
  intro ops hne
  match ops, hne with
  | o :: t, _ => exact ⟨⟨_, rfl⟩, ⟨_, rfl⟩⟩

theorem c1_witness :
    (∃ r, calculate_consensus [w_op1] = Except.ok r) ∧
    ∃ rep, make_decision {} w_case [w_op1]
        = (Except.ok rep,
           { decision_history :=
               ({} : DecisionEngine).decision_history ++ [rep] }) :=
  (c1_empty_fails_fast_nonempty_succeeds {} w_case).2.2 [w_op1] (by simp)

/-- C4: a single-opinion sequence succeeds with consensus score 1.0 and no
dissenting opinions. -/
theorem c4_single_opinion_short_circuits :
    ∀ o : AgentOpinion, ∃ r, calculate_consensus [o] = Except.ok r ∧
      r.consensus_score = 1 ∧ r.dissenting_opinions = [] := by
  intro o
  refine ⟨_, calculate_consensus_cons o [], ?_, ?_⟩
  · rfl
  · show identify_dissenting_opinions [o] (calculate_consensus_score [o]) = []
    have h1 : calculate_consensus_score [o] = 1 := rfl
    rw [identify_dissenting_opinions, h1, if_pos (by norm_num : (1 : ℝ) > 0.8)]

/-- C6: whenever the computed consensus score exceeds 0.8, the returned
dissent list is empty, regardless of individual confidences or concerns. -/
theorem c6_dissent_suppressed_on_high_consensus :
    ∀ (ops : List AgentOpinion) (r : ConsensusResult),
      calculate_consensus ops = Except.ok r →
      r.consensus_score > 0.8 → r.dissenting_opinions = [] := by
  intro ops r hok hs
  match ops, hok with
  | o :: t, hok =>
    rw [calculate_consensus_cons] at hok
    have hr := (Except.ok.injEq _ _).mp hok
    subst hr
    show identify_dissenting_opinions (o :: t) (calculate_consensus_score (o :: t)) = []
    exact if_pos hs

theorem c6_witness :
    calculate_consensus [w_op1] = Except.ok
      { final_recommendation := generate_final_recommendation [w_op1]
        consensus_score := calculate_consensus_score [w_op1]
        weighted_priority := weighted_priority_of [w_op1]
        dissenting_opinions :=
          identify_dissenting_opinions [w_op1] (calculate_consensus_score [w_op1])
        confidence_interval := calculate_confidence_interval [w_op1]
        risk_assessment := assess_risks [w_op1] } ∧
    calculate_consensus_score [w_op1] > 0.8 ∧
    identify_dissenting_opinions [w_op1] (calculate_consensus_score [w_op1]) = [] := by
  have hs : calculate_consensus_score [w_op1] > 0.8 := by
    rw [show calculate_consensus_score [w_op1] = 1 from rfl]; norm_num
  exact ⟨rfl, hs,
    c6_dissent_suppressed_on_high_consensus [w_op1] _ (calculate_consensus_cons w_op1 []) hs⟩

/-- C2 (counterexample): two opinions with equal confidences (0.5) and no
recommendations.  The code returns a consensus score of 0.0 outright, while
the claimed value `clamp(0.7 × 0 + 0.3 × confidence_consistency, upper=1.0)`
equals 0.3 here (the standard deviation of the confidences is 0). -/
theorem c2_counterexample_score_not_blended :
    calculate_consensus_score c2_ops
      ≠ min (0.7 * (0 : ℝ)
          + 0.3 * (1 - min (std_dev (confidences c2_ops)) 0.5 / 0.5)) 1 := by
  have h0 : calculate_consensus_score c2_ops = 0 := rfl
  have hv : q_variance (confidences c2_ops) = 0 := by
    norm_num [q_variance, q_mean, confidences, c2_ops, c2_op1, c2_op2]
  rw [h0, std_dev, hv]
  norm_num

/-- C2 (amended): with at least two opinions, all of whose recommendation
lists are empty, `_calculate_consensus_score` returns 0.0 directly (the
`total_recommendations == 0` early return), bypassing the
confidence-consistency blend entirely. -/
theorem c2_amended_no_recommendations_zero_score :
    ∀ ops : List AgentOpinion, 2 ≤ ops.length →
      (∀ o ∈ ops, o.recommendations = []) →
      calculate_consensus_score ops = 0 := by
  intro ops h2 hrec
  have hall : all_recommendations ops = [] := by
    rw [all_recommendations, List.flatten_eq_nil_iff]
    intro l hl
    obtain ⟨o, ho, rfl⟩ := List.mem_map.mp hl
    exact hrec o ho
  simp only [calculate_consensus_score]
  rw [if_neg (by omega), if_pos (by rw [hall]; rfl)]

theorem c2_amended_witness :
    2 ≤ c2_ops.length ∧ (∀ o ∈ c2_ops, o.recommendations = []) ∧
    calculate_consensus_score c2_ops = 0 :=
  ⟨by decide, by decide,
   c2_amended_no_recommendations_zero_score c2_ops (by decide) (by decide)⟩

/-- Recommendation overlap of the C3 scenario: "biopsy" occurs twice among
the 3 pooled recommendations, and the code sums the *counts* of repeated
items, so the fraction is 2/3. -/
theorem c3_overlap_value : overlap_fraction c3_ops = 2 / 3 := by
  rw [overlap_fraction, if_neg (by decide)]
  rw [show overlapping_count c3_ops = 2 from rfl,
      show (all_recommendations c3_ops).length = 3 from rfl]
  norm_num

/-- C3 (counterexample): on the two-opinion scenario the code's weighted
confidence is 0.39 / 0.6 = 0.65, not ≈ 0.6375, and its recommendation
overlap fraction is 2/3, not 1/3. -/
theorem c3_counterexample_scenario_values :
    weighted_confidence c3_ops ≠ 0.6375 ∧ overlap_fraction c3_ops ≠ 1 / 3 := by
  have hwc : weighted_confidence c3_ops = 0.65 := by
    norm_num [weighted_confidence, opinion_weights, role_weight, c3_ops,
      c3_op_a, c3_op_b]
  refine ⟨?_, ?_⟩
  · rw [hwc]; norm_num
  · rw [c3_overlap_value]; norm_num

/-- C3 (amended): on the concrete two-opinion scenario the weighted
confidence equals (0.35×0.9 + 0.25×0.3)/0.6 = 0.65, the recommendation
overlap fraction equals 2/3, the consensus score is below 0.8 (so the
dissent check applies), and the dissent list contains the low-confidence
entry for the radiologist (0.3 < 0.5). -/
theorem c3_amended_scenario :
    weighted_confidence c3_ops = 0.65 ∧
    overlap_fraction c3_ops = 2 / 3 ∧
    calculate_consensus_score c3_ops < 0.8 ∧
    DissentEntry.lowConfidence AgentRole.RADIOLOGIST 0.3 (excerpt100 c3_op_b.opinion)
      ∈ identify_dissenting_opinions c3_ops (calculate_consensus_score c3_ops) := by
  have hwc : weighted_confidence c3_ops = 0.65 := by
    norm_num [weighted_confidence, opinion_weights, role_weight, c3_ops,
      c3_op_a, c3_op_b]
  have hstd0 : 0 ≤ std_dev (confidences c3_ops) := Real.sqrt_nonneg _
  have hmin0 : (0 : ℝ) ≤ min (std_dev (confidences c3_ops)) 0.5 :=
    le_min hstd0 (by norm_num)
  have h08 : calculate_consensus_score c3_ops < 0.8 := by
    simp only [calculate_consensus_score]
    rw [if_neg (by decide), if_neg (by decide)]
    refine lt_of_le_of_lt (min_le_left _ _) ?_
    have hd : 0 ≤ min (std_dev (confidences c3_ops)) 0.5 / 0.5 :=
      div_nonneg hmin0 (by norm_num)
    rw [c3_overlap_value]
    push_cast
    linarith
  refine ⟨hwc, c3_overlap_value, h08, ?_⟩
  rw [identify_dissenting_opinions, if_neg (not_lt.mpr h08.le)]
  norm_num [c3_ops, dissent_for, c3_op_a, c3_op_b]

/-- C8: in `_determine_next_steps`, `weighted_priority > 8.0` puts the
high-priority string first; otherwise `weighted_priority > 6.0` puts the
moderate-priority string first; and when no rule fires (consensus score at
least 0.5, all risk thresholds unmet, priority at most 6.0) the result is
exactly the single-element default list. -/
theorem c8_next_steps_priority_gating :
    ∀ (cr : ConsensusResult) (c : MedicalCase),
      (cr.weighted_priority > 8 →
        (determine_next_steps cr c).head? = some "高优先级处理，48小时内启动治疗") ∧
      (¬ cr.weighted_priority > 8 → cr.weighted_priority > 6 →
        (determine_next_steps cr c).head? = some "中等优先级，一周内完成相关检查") ∧
      ((0.5 : ℝ) ≤ cr.consensus_score →
        risk_get cr.risk_assessment "medical_risk" ≤ 0.7 →
        risk_get cr.risk_assessment "psychological_risk" ≤ 0.5 →
        risk_get cr.risk_assessment "economic_risk" ≤ 0.5 →
        cr.weighted_priority ≤ 6 →
        determine_next_steps cr c = ["按计划执行推荐方案"]) := by
  intro cr c
  refine ⟨?_, ?_, ?_⟩
  · intro h8
    simp only [determine_next_steps]
    rw [if_pos h8, if_neg (List.cons_ne_nil _ _)]
    rfl
  · intro h8 h6
    simp only [determine_next_steps]
    rw [if_neg h8, if_pos h6, if_neg (List.cons_ne_nil _ _)]
    rfl
  · intro hs hm hp he hw
    simp only [determine_next_steps]
    rw [if_neg (not_lt.mpr hs), if_neg (not_lt.mpr hm), if_neg (not_lt.mpr hp),
        if_neg (not_lt.mpr he),
        if_neg (not_lt.mpr (le_trans hw (by norm_num))),
        if_neg (not_lt.mpr hw)]
    rfl

theorem c8_witness :
    (determine_next_steps c8w_high w_case).head?
        = some "高优先级处理，48小时内启动治疗" ∧
    determine_next_steps c8w_calm w_case = ["按计划执行推荐方案"] := by
  refine ⟨(c8_next_steps_priority_gating c8w_high w_case).1 ?_,
    (c8_next_steps_priority_gating c8w_calm w_case).2.2 ?_ ?_ ?_ ?_ ?_⟩
  · rw [show c8w_high.weighted_priority = 9 from rfl]; norm_num
  · rw [show c8w_calm.consensus_score = 1 from rfl]; norm_num
  · rw [show risk_get c8w_calm.risk_assessment "medical_risk" = 0 from rfl]
    norm_num
  · rw [show risk_get c8w_calm.risk_assessment "psychological_risk" = 0 from rfl]
    norm_num
  · rw [show risk_get c8w_calm.risk_assessment "economic_risk" = 0 from rfl]
    norm_num
  · rw [show c8w_calm.weighted_priority = 5 from rfl]; norm_num

/-- An opinion with no concerns contributes risk value 0 in every category. -/
theorem role_risk_value_no_concerns (kws : List String) (o : AgentOpinion)
    (h : o.concerns = []) : role_risk_value kws o = 0 := by
  norm_num [role_risk_value, h]

/-- An opinion with no concerns leaves the initial risk dict unchanged. -/
theorem risk_step_initial_no_concerns (o : AgentOpinion) (h : o.concerns = []) :
    risk_step initial_risks o = initial_risks := by
  cases hr : o.role <;>
    simp only [risk_step, hr, role_risk_value_no_concerns _ _ h] <;>
    decide

/-- `_assess_risks` on opinions that all lack concerns returns the all-zero
risk dict. -/
theorem assess_risks_no_concerns (ops : List AgentOpinion)
    (h : ∀ o ∈ ops, o.concerns = []) :
    assess_risks ops = initial_risks := by
  rw [assess_risks]
  induction ops with
  | nil => rfl
  | cons o t ih =>
    rw [List.foldl_cons, risk_step_initial_no_concerns o (h o (by simp)),
        ih (fun p hp => h p (by simp [hp]))]

/-- `_create_follow_up_plan` on an all-zero risk dict: no short-term items,
fixed medium- and long-term checklists. -/
theorem create_follow_up_plan_initial (cr : ConsensusResult)
    (h : cr.risk_assessment = initial_risks) :
    create_follow_up_plan cr =
      { short_term := []
        medium_term := ["疗效评估", "生活质量评估", "心理状态评估"]
        long_term := ["定期复查", "复发监测", "康复评估"] } := by
  have hany : ¬ (initial_risks.any (fun p => decide ((0.6 : ℚ) < p.2)) = true) := by
    simp only [initial_risks, List.any_cons, List.any_nil, Bool.or_eq_true,
      decide_eq_true_eq]
    norm_num
  simp only [create_follow_up_plan, h]
  rw [if_neg hany]

/-- C9: when every opinion lacks concerns, the consensus result's four risk
values are all 0.0 (the dict stays at its initial all-zero state), the
follow-up plan's short-term bucket is empty, and the medium- and long-term
buckets carry their fixed three-item checklists. -/
theorem c9_no_concerns_plan :
    ∀ ops : List AgentOpinion, ops ≠ [] → (∀ o ∈ ops, o.concerns = []) →
      ∃ r, calculate_consensus ops = Except.ok r ∧
        r.risk_assessment = initial_risks ∧
        create_follow_up_plan r =
          { short_term := []
            medium_term := ["疗效评估", "生活质量评估", "心理状态评估"]
            long_term := ["定期复查", "复发监测", "康复评估"] } := by
  intro ops hne hcon
  match ops, hne with
  | o :: t, _ =>
    have hra : assess_risks (o :: t) = initial_risks :=
      assess_risks_no_concerns _ hcon
    exact ⟨_, calculate_consensus_cons o t, hra,
      create_follow_up_plan_initial _ hra⟩

theorem c9_witness :
    ∃ r, calculate_consensus [w_op1] = Except.ok r ∧
      r.risk_assessment = initial_risks ∧
      create_follow_up_plan r =
        { short_term := []
          medium_term := ["疗效评估", "生活质量评估", "心理状态评估"]
          long_term := ["定期复查", "复发监测", "康复评估"] } :=
  c9_no_concerns_plan [w_op1] (by simp) (by decide)

/-- Writing one key leaves the values at every other key unchanged. -/
theorem risk_get_set_risk_ne (rs : List (String × ℚ)) (key key2 : String)
    (v : ℚ) (h : key ≠ key2) :
    risk_get (set_risk key2 v rs) key = risk_get rs key := by
  induction rs with
  | nil => rfl
  | cons p t ih =>
    simp only [set_risk, List.map_cons] at ih ⊢
    by_cases hp : p.1 = key2
    · rw [if_pos hp]
      have hk : ¬ p.1 = key := fun hk => h (hk ▸ hp)
      simp only [risk_get, hk, if_neg, ite_false]
      exact ih
    · rw [if_neg hp]
      by_cases hk : p.1 = key
      · simp only [risk_get, hk, if_pos, ite_true]
      · simp only [risk_get, hk, if_neg, ite_false]
        exact ih

/-- Writing a key that is present makes it read back the written value. -/
theorem risk_get_set_risk_self (rs : List (String × ℚ)) (key : String)
    (v : ℚ) (h : key ∈ rs.map Prod.fst) :
    risk_get (set_risk key v rs) key = v := by
  induction rs with
  | nil => simp at h
  | cons p t ih =>
    simp only [set_risk, List.map_cons] at ih ⊢
    by_cases hp : p.1 = key
    · rw [if_pos hp]
      simp only [risk_get, hp, if_pos, ite_true]
    · rw [if_neg hp]
      simp only [risk_get, hp, if_neg, ite_false]
      rcases List.mem_cons.mp h with hh | hh
      · exact absurd hh.symm hp
      · exact ih hh

/-- `set_risk` never changes the key sequence of the dict. -/
theorem set_risk_keys (rs : List (String × ℚ)) (key : String) (v : ℚ) :
    (set_risk key v rs).map Prod.fst = rs.map Prod.fst := by
  rw [set_risk, List.map_map]
  apply List.map_congr_left
  intro p _
  by_cases hp : p.1 = key <;> simp [hp]

/-- One `_assess_risks` loop step never changes the key sequence. -/
theorem risk_step_keys (rs : List (String × ℚ)) (o : AgentOpinion) :
    (risk_step rs o).map Prod.fst = rs.map Prod.fst := by
  cases hr : o.role <;> simp [risk_step, hr, set_risk_keys]

/-- The whole `_assess_risks` loop never changes the key sequence. -/
theorem foldl_risk_step_keys (ops : List AgentOpinion)
    (rs : List (String × ℚ)) :
    (ops.foldl risk_step rs).map Prod.fst = rs.map Prod.fst := by
  induction ops generalizing rs with
  | nil => rfl
  | cons o t ih => rw [List.foldl_cons, ih, risk_step_keys]

/-- A loop step leaves every key its role does not write unchanged. -/
theorem risk_get_risk_step_untouched (rs : List (String × ℚ))
    (o : AgentOpinion) (key : String) (h : key ∉ touched_keys o.role) :
    risk_get (risk_step rs o) key = risk_get rs key := by
  cases hr : o.role
  case ONCOLOGIST =>
    rw [hr] at h
    simp only [touched_keys, List.mem_singleton] at h
    simp only [risk_step, hr]
    exact risk_get_set_risk_ne _ _ _ _ h
  case PSYCHOLOGIST =>
    rw [hr] at h
    simp only [touched_keys, List.mem_singleton] at h
    simp only [risk_step, hr]
    exact risk_get_set_risk_ne _ _ _ _ h
  case PATIENT_ADVOCATE =>
    rw [hr] at h
    simp only [touched_keys, List.mem_cons, List.mem_singleton, not_or] at h
    simp only [risk_step, hr]
    rw [risk_get_set_risk_ne _ _ _ _ h.2.1, risk_get_set_risk_ne _ _ _ _ h.1]
  case NURSE => simp [risk_step, hr]
  case RADIOLOGIST => simp [risk_step, hr]

/-- Folding over opinions none of whose roles write a key leaves that key's
value unchanged. -/
theorem risk_get_foldl_untouched (post : List AgentOpinion)
    (rs : List (String × ℚ)) (key : String)
    (h : ∀ p ∈ post, key ∉ touched_keys p.role) :
    risk_get (post.foldl risk_step rs) key = risk_get rs key := by
  induction post generalizing rs with
  | nil => rfl
  | cons p t ih =>
    rw [List.foldl_cons, ih _ (fun q hq => h q (by simp [hq])),
        risk_get_risk_step_untouched _ _ _ (h p (by simp))]

/-- Opinions from non-authoritative roles are risk no-ops. -/
theorem foldl_risk_step_filter (ops : List AgentOpinion)
    (rs : List (String × ℚ)) :
    ops.foldl risk_step rs = (ops.filter authoritative).foldl risk_step rs := by
  induction ops generalizing rs with
  | nil => rfl
  | cons o t ih =>
    cases ha : authoritative o
    · have hstep : risk_step rs o = rs := by
        cases hr : o.role
        case NURSE => simp [risk_step, hr]
        case RADIOLOGIST => simp [risk_step, hr]
        all_goals rw [authoritative, hr] at ha; exact absurd ha (by simp)
      rw [List.foldl_cons, hstep, List.filter_cons_of_neg (by simp [ha]), ih]
    · rw [List.foldl_cons, List.filter_cons_of_pos ha, List.foldl_cons, ih]

/-- Only the oncologist role writes the medical risk key. -/
theorem medical_key_only_oncologist (r : AgentRole)
    (h : r ≠ AgentRole.ONCOLOGIST) : "medical_risk" ∉ touched_keys r := by
  cases r
  case ONCOLOGIST => exact absurd rfl h
  all_goals simp [touched_keys]

/-- Only the psychologist role writes the psychological risk key. -/
theorem psych_key_only_psychologist (r : AgentRole)
    (h : r ≠ AgentRole.PSYCHOLOGIST) : "psychological_risk" ∉ touched_keys r := by
  cases r
  case PSYCHOLOGIST => exact absurd rfl h
  all_goals simp [touched_keys]

/-- Only the patient advocate role writes the economic risk key. -/
theorem economic_key_only_advocate (r : AgentRole)
    (h : r ≠ AgentRole.PATIENT_ADVOCATE) : "economic_risk" ∉ touched_keys r := by
  cases r
  case PATIENT_ADVOCATE => exact absurd rfl h
  all_goals simp [touched_keys]

/-- Only the patient advocate role writes the quality-of-life risk key. -/
theorem quality_key_only_advocate (r : AgentRole)
    (h : r ≠ AgentRole.PATIENT_ADVOCATE) : "quality_of_life_risk" ∉ touched_keys r := by
  cases r
  case PATIENT_ADVOCATE => exact absurd rfl h
  all_goals simp [touched_keys]

/-- Splitting `_assess_risks` around the last opinion that writes a key. -/
theorem risk_get_assess_append (pre : List AgentOpinion) (o : AgentOpinion)
    (post : List AgentOpinion) (key : String)
    (hpost : ∀ p ∈ post, key ∉ touched_keys p.role) :
    risk_get (assess_risks (pre ++ o :: post)) key
      = risk_get (risk_step (pre.foldl risk_step initial_risks) o) key := by
  rw [assess_risks, List.foldl_append, List.foldl_cons,
      risk_get_foldl_untouched _ _ _ hpost]

/-- The key sequence after any prefix of the risk loop is still the four
fixed keys. -/
theorem pre_fold_keys (pre : List AgentOpinion) :
    (pre.foldl risk_step initial_risks).map Prod.fst
      = ["medical_risk", "psychological_risk", "economic_risk",
         "quality_of_life_risk"] := by
  rw [foldl_risk_step_keys]; rfl

/-- C10: only oncologist, psychologist and patient-advocate opinions affect
the risk assessment — a sequence of only nurse/radiologist opinions leaves
every value at its 0.0 default — and each category value equals the
keyword-match value of the last opinion of the authoritative role in input
order (later writes overwrite earlier ones). -/
theorem c10_risk_authority_and_overwrite :
    (∀ ops : List AgentOpinion,
        assess_risks ops = assess_risks (ops.filter authoritative)) ∧
    (∀ ops : List AgentOpinion,
        (∀ o ∈ ops, o.role = AgentRole.NURSE ∨ o.role = AgentRole.RADIOLOGIST) →
        assess_risks ops = initial_risks) ∧
    (∀ (pre : List AgentOpinion) (o : AgentOpinion) (post : List AgentOpinion),
        o.role = AgentRole.ONCOLOGIST →
        (∀ p ∈ post, p.role ≠ AgentRole.ONCOLOGIST) →
        risk_get (assess_risks (pre ++ o :: post)) "medical_risk"
          = role_risk_value medical_keywords o) ∧
    (∀ (pre : List AgentOpinion) (o : AgentOpinion) (post : List AgentOpinion),
        o.role = AgentRole.PSYCHOLOGIST →
        (∀ p ∈ post, p.role ≠ AgentRole.PSYCHOLOGIST) →
        risk_get (assess_risks (pre ++ o :: post)) "psychological_risk"
          = role_risk_value psych_keywords o) ∧
    (∀ (pre : List AgentOpinion) (o : AgentOpinion) (post : List AgentOpinion),
        o.role = AgentRole.PATIENT_ADVOCATE →
        (∀ p ∈ post, p.role ≠ AgentRole.PATIENT_ADVOCATE) →
        risk_get (assess_risks (pre ++ o :: post)) "economic_risk"
          = role_risk_value economic_keywords o ∧
        risk_get (assess_risks (pre ++ o :: post)) "quality_of_life_risk"
          = role_risk_value quality_keywords o) := by
  refine ⟨?_, ?_, ?_, ?_, ?_⟩
  · intro ops
    rw [assess_risks, assess_risks]
    exact foldl_risk_step_filter ops initial_risks
  · intro ops h
    rw [assess_risks, foldl_risk_step_filter,
        List.filter_eq_nil_iff.mpr
          (fun a ha => by rcases h a ha with hr | hr <;> simp [authoritative, hr])]
    rfl
  · intro pre o post ho hpost
    rw [risk_get_assess_append pre o post _
          (fun p hp => medical_key_only_oncologist _ (hpost p hp))]
    simp only [risk_step, ho]
    exact risk_get_set_risk_self _ _ _ (by rw [pre_fold_keys]; simp)
  · intro pre o post ho hpost
    rw [risk_get_assess_append pre o post _
          (fun p hp => psych_key_only_psychologist _ (hpost p hp))]
    simp only [risk_step, ho]
    exact risk_get_set_risk_self _ _ _ (by rw [pre_fold_keys]; simp)
  · intro pre o post ho hpost
    constructor
    · rw [risk_get_assess_append pre o post _
            (fun p hp => economic_key_only_advocate _ (hpost p hp))]
      simp only [risk_step, ho]
      rw [risk_get_set_risk_ne _ _ _ _ (by simp)]
      exact risk_get_set_risk_self _ _ _ (by rw [pre_fold_keys]; simp)
    · rw [risk_get_assess_append pre o post _
            (fun p hp => quality_key_only_advocate _ (hpost p hp))]
      simp only [risk_step, ho]
      exact risk_get_set_risk_self _ _ _
        (by rw [set_risk_keys, pre_fold_keys]; simp)

/-- Every role weight in the table is positive. -/
theorem role_weight_pos (r : AgentRole) : 0 < role_weight r := by
  cases r <;> norm_num [role_weight]

/-- The weight vector of a non-empty opinion list has positive sum. -/
theorem opinion_weights_sum_pos (ops : List AgentOpinion) (h : ops ≠ []) :
    0 < (opinion_weights ops).sum := by
  match ops, h with
  | o :: t, _ =>
    rw [opinion_weights, List.map_cons, List.sum_cons]
    have ht : 0 ≤ (t.map (fun p => role_weight p.role)).sum :=
      List.sum_nonneg (fun x hx => by
        obtain ⟨p, _, rfl⟩ := List.mem_map.mp hx
        exact (role_weight_pos _).le)
    exact add_pos_of_pos_of_nonneg (role_weight_pos _) ht

/-- The weighted confidence of opinions with confidences in [0,1] lies in
[0,1]. -/
theorem weighted_confidence_mem (ops : List AgentOpinion) (hne : ops ≠ [])
    (hc : ∀ o ∈ ops, 0 ≤ o.confidence ∧ o.confidence ≤ 1) :
    0 ≤ weighted_confidence ops ∧ weighted_confidence ops ≤ 1 := by
  have hden := opinion_weights_sum_pos ops hne
  have hnum0 : 0 ≤ (ops.map (fun o => role_weight o.role * o.confidence)).sum :=
    List.sum_nonneg (fun x hx => by
      obtain ⟨p, hp, rfl⟩ := List.mem_map.mp hx
      exact mul_nonneg (role_weight_pos _).le (hc p hp).1)
  have hnum1 : (ops.map (fun o => role_weight o.role * o.confidence)).sum
      ≤ (opinion_weights ops).sum := by
    rw [opinion_weights]
    refine List.sum_le_sum (fun o ho => ?_)
    calc role_weight o.role * o.confidence
        ≤ role_weight o.role * 1 :=
          mul_le_mul_of_nonneg_left (hc o ho).2 (role_weight_pos _).le
      _ = role_weight o.role := mul_one _
  rw [weighted_confidence]
  exact ⟨div_nonneg hnum0 hden.le, (div_le_one hden).mpr hnum1⟩

/-- The computed consensus score always lies in [0,1]. -/
theorem consensus_score_mem (ops : List AgentOpinion) :
    0 ≤ calculate_consensus_score ops ∧ calculate_consensus_score ops ≤ 1 := by
  simp only [calculate_consensus_score]
  split_ifs with h1 h2
  · norm_num
  · norm_num
  · have hq : 0 ≤ overlap_fraction ops := by
      rw [overlap_fraction, if_neg h2]
      exact div_nonneg (Nat.cast_nonneg _) (Nat.cast_nonneg _)
    have hov : (0 : ℝ) ≤ ((overlap_fraction ops : ℚ) : ℝ) := by exact_mod_cast hq
    have hstd : 0 ≤ std_dev (confidences ops) := Real.sqrt_nonneg _
    have hminle : min (std_dev (confidences ops)) 0.5 ≤ 0.5 := min_le_right _ _
    have hcc0 : 0 ≤ 1 - min (std_dev (confidences ops)) 0.5 / 0.5 := by
      have hd1 : min (std_dev (confidences ops)) 0.5 / 0.5 ≤ 1 := by
        rw [div_le_one (by norm_num : (0 : ℝ) < 0.5)]
        exact hminle
      linarith
    constructor
    · refine le_min ?_ (by norm_num)
      exact add_nonneg (mul_nonneg (by norm_num) hov) (mul_nonneg (by norm_num) hcc0)
    · exact min_le_right _ _

/-- The confidence interval is ordered and contained in [0,1] for
non-empty opinion lists with confidences in [0,1]. -/
theorem confidence_interval_bounds (ops : List AgentOpinion) (hne : ops ≠ [])
    (hc : ∀ o ∈ ops, 0 ≤ o.confidence ∧ o.confidence ≤ 1) :
    (calculate_confidence_interval ops).1 ≤ (calculate_confidence_interval ops).2 ∧
    0 ≤ (calculate_confidence_interval ops).1 ∧
    (calculate_confidence_interval ops).1 ≤ 1 ∧
    0 ≤ (calculate_confidence_interval ops).2 ∧
    (calculate_confidence_interval ops).2 ≤ 1 := by
  obtain ⟨hm0, hm1⟩ := weighted_confidence_mem ops hne hc
  have hm0R : (0 : ℝ) ≤ ((weighted_confidence ops : ℚ) : ℝ) := by exact_mod_cast hm0
  have hm1R : ((weighted_confidence ops : ℚ) : ℝ) ≤ 1 := by exact_mod_cast hm1
  have he : 0 ≤ 1.96 * Real.sqrt ((weighted_conf_variance ops : ℚ) : ℝ)
      / Real.sqrt (ops.length : ℝ) :=
    div_nonneg (mul_nonneg (by norm_num) (Real.sqrt_nonneg _)) (Real.sqrt_nonneg _)
  refine ⟨?_, ?_, ?_, ?_, ?_⟩
  · show max 0 (((weighted_confidence ops : ℚ) : ℝ)
        - 1.96 * Real.sqrt ((weighted_conf_variance ops : ℚ) : ℝ)
            / Real.sqrt (ops.length : ℝ))
      ≤ min 1 (((weighted_confidence ops : ℚ) : ℝ)
        + 1.96 * Real.sqrt ((weighted_conf_variance ops : ℚ) : ℝ)
            / Real.sqrt (ops.length : ℝ))
    exact max_le (le_min (by norm_num) (by linarith))
      (le_min (by linarith) (by linarith))
  · exact le_max_left _ _
  · show max 0 (((weighted_confidence ops : ℚ) : ℝ)
        - 1.96 * Real.sqrt ((weighted_conf_variance ops : ℚ) : ℝ)
            / Real.sqrt (ops.length : ℝ)) ≤ 1
    exact max_le (by norm_num) (by linarith)
  · show (0 : ℝ) ≤ min 1 (((weighted_confidence ops : ℚ) : ℝ)
        + 1.96 * Real.sqrt ((weighted_conf_variance ops : ℚ) : ℝ)
            / Real.sqrt (ops.length : ℝ))
    exact le_min (by norm_num) (by linarith)
  · exact min_le_left _ _

/-- Each per-category risk value lies in [0,1]. -/
theorem role_risk_value_mem (kws : List String) (o : AgentOpinion) :
    0 ≤ role_risk_value kws o ∧ role_risk_value kws o ≤ 1 := by
  constructor
  · rw [role_risk_value]
    refine le_min ?_ (by norm_num)
    split_ifs
    · exact le_refl 0
    · exact div_nonneg (Nat.cast_nonneg _) (Nat.cast_nonneg _)
  · exact min_le_right _ _

/-- An element of an updated risk dict carries the written value or was
already present. -/
theorem set_risk_values (rs : List (String × ℚ)) (key : String) (v : ℚ)
    (q : String × ℚ) (hq : q ∈ set_risk key v rs) : q.2 = v ∨ q ∈ rs := by
  rw [set_risk] at hq
  obtain ⟨p, hp, rfl⟩ := List.mem_map.mp hq
  by_cases h : p.1 = key
  · left; rw [if_pos h]
  · right; rw [if_neg h]; exact hp

/-- Every value in the assessed risk dict lies in [0,1]. -/
theorem assess_risks_values (ops : List AgentOpinion) :
    ∀ q ∈ assess_risks ops, 0 ≤ q.2 ∧ q.2 ≤ 1 := by
  rw [assess_risks]
  have hinit : ∀ q ∈ initial_risks, 0 ≤ q.2 ∧ q.2 ≤ 1 := by
    intro q hq
    simp only [initial_risks, List.mem_cons, List.not_mem_nil, or_false] at hq
    rcases hq with h | h | h | h <;> rw [h] <;> norm_num
  revert hinit
  generalize initial_risks = rs
  intro hinit
  induction ops generalizing rs with
  | nil => exact hinit
  | cons o t ih =>
    rw [List.foldl_cons]
    refine ih _ ?_
    intro q hq
    cases hr : o.role
    all_goals simp only [risk_step, hr] at hq
    case NURSE => exact hinit q hq
    case RADIOLOGIST => exact hinit q hq
    case ONCOLOGIST =>
      rcases set_risk_values _ _ _ _ hq with h | h
      · rw [h]; exact role_risk_value_mem _ _
      · exact hinit q h
    case PSYCHOLOGIST =>
      rcases set_risk_values _ _ _ _ hq with h | h
      · rw [h]; exact role_risk_value_mem _ _
      · exact hinit q h
    case PATIENT_ADVOCATE =>
      rcases set_risk_values _ _ _ _ hq with h | h
      · rw [h]; exact role_risk_value_mem _ _
      · rcases set_risk_values _ _ _ _ h with h2 | h2
        · rw [h2]; exact role_risk_value_mem _ _
        · exact hinit q h2

/-- C5: for every non-empty opinion list with confidences in [0,1], the
returned result has consensus score in [0,1], an ordered confidence
interval inside [0,1], and a risk dict with exactly the four fixed keys
whose values all lie in [0,1]. -/
theorem c5_result_invariants :
    ∀ ops : List AgentOpinion, ops ≠ [] →
      (∀ o ∈ ops, 0 ≤ o.confidence ∧ o.confidence ≤ 1) →
      ∃ r, calculate_consensus ops = Except.ok r ∧
        (0 ≤ r.consensus_score ∧ r.consensus_score ≤ 1) ∧
        (r.confidence_interval.1 ≤ r.confidence_interval.2 ∧
         0 ≤ r.confidence_interval.1 ∧ r.confidence_interval.1 ≤ 1 ∧
         0 ≤ r.confidence_interval.2 ∧ r.confidence_interval.2 ≤ 1) ∧
        r.risk_assessment.map Prod.fst
          = ["medical_risk", "psychological_risk", "economic_risk",
             "quality_of_life_risk"] ∧
        (∀ q ∈ r.risk_assessment, 0 ≤ q.2 ∧ q.2 ≤ 1) := by
  intro ops hne hc
  match ops, hne, hc with
  | o :: t, _, hc =>
    exact ⟨_, calculate_consensus_cons o t, consensus_score_mem _,
      confidence_interval_bounds _ (by simp) hc, pre_fold_keys (o :: t),
      assess_risks_values _⟩

theorem c5_witness :
    ∃ r, calculate_consensus [w_op1] = Except.ok r ∧
      (0 ≤ r.consensus_score ∧ r.consensus_score ≤ 1) ∧
      (r.confidence_interval.1 ≤ r.confidence_interval.2 ∧
       0 ≤ r.confidence_interval.1 ∧ r.confidence_interval.1 ≤ 1 ∧
       0 ≤ r.confidence_interval.2 ∧ r.confidence_interval.2 ≤ 1) ∧
      r.risk_assessment.map Prod.fst
        = ["medical_risk", "psychological_risk", "economic_risk",
           "quality_of_life_risk"] ∧
      (∀ q ∈ r.risk_assessment, 0 ≤ q.2 ∧ q.2 ≤ 1) :=
  c5_result_invariants [w_op1] (by simp) (by
    intro o ho
    rw [List.mem_singleton] at ho
    subst ho
    rw [show w_op1.confidence = 0.9 from rfl]
    norm_num)

theorem c10_witness :
    risk_get (assess_risks [c10w_psy, c10w_onc, c10w_rad]) "medical_risk"
      = role_risk_value medical_keywords c10w_onc ∧
    assess_risks [c10w_rad] = initial_risks :=
  ⟨c10_risk_authority_and_overwrite.2.2.1 [c10w_psy] c10w_onc [c10w_rad]
      rfl (by decide),
   c10_risk_authority_and_overwrite.2.1 [c10w_rad] (by decide)⟩

/-- Replacing confidences preserves the list length. -/
theorem set_confidences_length (ops : List AgentOpinion) (cs : List ℚ)
    (h : cs.length = ops.length) :
    (set_confidences ops cs).length = ops.length := by
  rw [set_confidences, List.length_zipWith, h, min_self]

/-- Replacing confidences does not change any recommendation list. -/
theorem set_confidences_recs (ops : List AgentOpinion) (cs : List ℚ)
    (h : cs.length = ops.length) :
    (set_confidences ops cs).map (fun o => o.recommendations)
      = ops.map (fun o => o.recommendations) := by
  induction ops generalizing cs with
  | nil => rfl
  | cons o t ih =>
    match cs, h with
    | c :: cs', h' =>
      exact congrArg (fun l => o.recommendations :: l)
        (ih cs' (by simpa using h'))

/-- The confidences of the updated opinions are exactly the new list. -/
theorem set_confidences_confs (ops : List AgentOpinion) (cs : List ℚ)
    (h : cs.length = ops.length) :
    confidences (set_confidences ops cs) = cs := by
  induction ops generalizing cs with
  | nil =>
    match cs, h with
    | [], _ => rfl
  | cons o t ih =>
    match cs, h with
    | c :: cs', h' =>
      exact congrArg (fun l => c :: l) (ih cs' (by simpa using h'))

/-- C7: moving every confidence toward the weighted mean, in such a way
that the dispersion (population variance) of the confidences does not
increase, while every recommendation list is held fixed, never decreases
the consensus score (for at least two opinions). -/
theorem c7_reduced_dispersion_monotone :
    ∀ (ops : List AgentOpinion) (cs : List ℚ),
      cs.length = ops.length → 2 ≤ ops.length →
      (∀ p ∈ ops.zip cs,
          min p.1.confidence (weighted_confidence ops) ≤ p.2 ∧
          p.2 ≤ max p.1.confidence (weighted_confidence ops)) →
      q_variance cs ≤ q_variance (confidences ops) →
      calculate_consensus_score ops
        ≤ calculate_consensus_score (set_confidences ops cs) := by
  intro ops cs hlen h2 _htoward hdisp
  have hlen' : (set_confidences ops cs).length = ops.length :=
    set_confidences_length _ _ hlen
  have hrecs : all_recommendations (set_confidences ops cs)
      = all_recommendations ops := by
    rw [all_recommendations, all_recommendations, set_confidences_recs _ _ hlen]
  have hconfs : confidences (set_confidences ops cs) = cs :=
    set_confidences_confs _ _ hlen
  have hstd : std_dev cs ≤ std_dev (confidences ops) :=
    Real.sqrt_le_sqrt (by exact_mod_cast hdisp)
  have hov : overlap_fraction (set_confidences ops cs) = overlap_fraction ops := by
    simp only [overlap_fraction, overlapping_count, hrecs]
  simp only [calculate_consensus_score, hlen', hrecs, hconfs, hov]
  split_ifs with ha hb
  · exact le_rfl
  · exact le_rfl
  · have hm : min (std_dev cs) 0.5 ≤ min (std_dev (confidences ops)) 0.5 :=
      min_le_min hstd le_rfl
    have hdiv : min (std_dev cs) 0.5 / 0.5
        ≤ min (std_dev (confidences ops)) 0.5 / 0.5 :=
      (div_le_div_iff_of_pos_right (by norm_num : (0 : ℝ) < 0.5)).mpr hm
    refine min_le_min ?_ le_rfl
    linarith [hdiv]

theorem c7_witness :
    c7w_cs.length = c7w_ops.length ∧ 2 ≤ c7w_ops.length ∧
    q_variance c7w_cs ≤ q_variance (confidences c7w_ops) ∧
    calculate_consensus_score c7w_ops
      ≤ calculate_consensus_score (set_confidences c7w_ops c7w_cs) := by
  have hlen : c7w_cs.length = c7w_ops.length := by decide
  have h2 : 2 ≤ c7w_ops.length := by decide
  have hwc : weighted_confidence c7w_ops = 1 / 2 := by
    norm_num [weighted_confidence, opinion_weights, role_weight, c7w_ops,
      c7w_op1, c7w_op2]
  have hd : q_variance c7w_cs ≤ q_variance (confidences c7w_ops) := by
    norm_num [q_variance, q_mean, confidences, c7w_ops, c7w_op1, c7w_op2, c7w_cs]
  have ht : ∀ p ∈ c7w_ops.zip c7w_cs,
      min p.1.confidence (weighted_confidence c7w_ops) ≤ p.2 ∧
      p.2 ≤ max p.1.confidence (weighted_confidence c7w_ops) := by
    intro p hp
    rw [hwc]
    simp only [c7w_ops, c7w_cs, List.zip_cons_cons, List.zip_nil_right,
      List.mem_cons, List.not_mem_nil, or_false] at hp
    rcases hp with h | h <;> rw [h]
    · rw [show c7w_op1.confidence = 0.5 from rfl]; norm_num
    · rw [show c7w_op2.confidence = 0.5 from rfl]; norm_num
  exact ⟨hlen, h2, hd,
    c7_reduced_dispersion_monotone c7w_ops c7w_cs hlen h2 ht hd⟩
